import Mathlib

/-!
Verification of the FactSeeker claim-to-evidence pipeline against its
natural-language specification.

The definitions below are a shallow embedding of the Python source:

* `core/lambdas.py` — `calculate_fact_check_confidence`,
  `calculate_source_diversity_score`, `clean_evidence_content`,
  `clean_evidence_json` (including a faithful model of the regex
  substitutions the cleaner performs and of `urllib.parse.urlparse(...).netloc`);
* `services/fact_checker.py` — the per-claim cascade `process_claim_step`,
  the exception-absorbing gather loop and the weighted aggregate of
  `run_fact_check`, and the tiered cache logic of `ensure_article_faiss`;
* `article_checker/article_fact_checker.py` — the plain-mean aggregate of
  `run_article_fact_check`.

External collaborators (search providers, the LLM judge, the embedder,
FAISS itself) are modelled as oracle parameters; machine floats are
modelled as exact rationals (every rounded quantity in the source lands
far from a representation boundary, see the comments at `pythonRound`).
-/

namespace FactSeeker

/-! ## Python `round`

Python `round` rounds to the nearest integer, ties to even ("banker's
rounding").  We model it on exact rationals; the source computes the same
quantities on IEEE doubles, whose error (a few ulps) never moves a value
across a rounding boundary for the integer-valued scores handled here. -/

/-- Floor of a rational, via flooring integer division (the denominator
is positive, so `Int.fdiv` of the numerator by the denominator is the
floor). -/
def ratFloor (q : ℚ) : ℤ := q.num.fdiv (q.den : ℤ)

def pythonRound (q : ℚ) : ℤ :=
  let f : ℤ := ratFloor q
  let r : ℚ := q - f
  if r < 1 / 2 then f
  else if 1 / 2 < r then f + 1
  else if f % 2 = 0 then f else f + 1

theorem ratFloor_intCast (n : ℤ) : ratFloor (n : ℚ) = n := by
  simp [ratFloor, Rat.num_intCast, Rat.den_intCast]

theorem pythonRound_intCast (n : ℤ) : pythonRound (n : ℚ) = n := by
  unfold pythonRound
  rw [ratFloor_intCast]
  norm_num

/-! ## Evidence items

`factcheck_doc` (services/fact_checker.py) produces evidence dicts with
keys `url`, `relevance`, `fact_check_result`, `justification`, `snippet`;
`calculate_source_diversity_score` additionally reads a `source_title`
key.  Absent/None/empty string all behave the same under Python
truthiness in the code paths modelled here, so absent keys are modelled
as the empty string. -/

structure EvidenceItem where
  url : String
  relevance : String
  fact_check_result : String
  justification : String
  snippet : String
  source_title : String
deriving DecidableEq, Repr

/-! ## `urlparse(url).netloc` (urllib.parse)

`urlparse` strips a leading `scheme:` (a letter followed by
letters/digits/`+`/`-`/`.` up to a colon); the netloc is present only if
the remainder starts with `//`, and extends up to the next `/`, `?` or
`#`. -/

def isSchemeTailChar (c : Char) : Bool :=
  c.isAlphanum || c == '+' || c == '-' || c == '.'

def schemeTail : List Char → Option (List Char)
  | [] => none
  | ':' :: rest => some rest
  | c :: rest => if isSchemeTailChar c then schemeTail rest else none

def dropScheme (cs : List Char) : List Char :=
  match cs with
  | [] => []
  | c :: rest =>
    if c.isAlpha then
      match schemeTail rest with
      | some r => r
      | none => cs
    else cs

def netlocOf (url : String) : String :=
  match dropScheme url.data with
  | '/' :: '/' :: r =>
    ⟨r.takeWhile (fun c => !(c == '/' || c == '?' || c == '#'))⟩
  | _ => ⟨[]⟩

/-- ASCII lowering, modelling `str.lower()` on the ASCII strings that
occur as hosts and source titles here. -/
def pyLower (s : String) : String := ⟨s.data.map Char.toLower⟩

/-! ## Scoring helpers (core/lambdas.py) -/

/-- Model of `calculate_source_diversity_score`: the set of distinct
sources, preferring a truthy `source_title`, else the lowercased URL
host (skipping the item if neither yields a non-empty key). -/
def sourceKey (item : EvidenceItem) : Option String :=
  if item.source_title ≠ "" then some (pyLower item.source_title)
  else if item.url ≠ "" then
    let dom := netlocOf item.url
    if dom ≠ "" then some (pyLower dom) else none
  else none

def distinctSources (evidence : List EvidenceItem) : Nat :=
  (evidence.filterMap sourceKey).toFinset.card

def calculate_source_diversity_score (evidence : List EvidenceItem) : ℤ :=
  if evidence = [] then 0
  else if distinctSources evidence ≥ 4 then 5
  else if distinctSources evidence = 3 then 4
  else if distinctSources evidence = 2 then 3
  else if distinctSources evidence = 1 then 1
  else 0

/-- Model of `calculate_fact_check_confidence` applied to the dict
`{"source_diversity": sd, "evidence_count": ec}` (the only shape the
call sites construct).  Each score must lie in `0..5`, otherwise the
function returns 0; `total_possible` is `5 * 2 = 10` and the percentage
`(sd + ec) / 10 * 100` is rounded and clamped to `[0, 100]`. -/
def calculate_fact_check_confidence (source_diversity evidence_count : ℤ) : ℤ :=
  if ¬(0 ≤ source_diversity ∧ source_diversity ≤ 5) then 0
  else if ¬(0 ≤ evidence_count ∧ evidence_count ≤ 5) then 0
  else
    max 0 (min 100
      (pythonRound ((((source_diversity : ℚ) + (evidence_count : ℚ)) / 10) * 100)))

/-- Per-claim confidence as computed at the call sites in
`process_claim_step` (both files): diversity over the validated
evidence, evidence count clamped to 5. -/
def confidenceOf (evidence : List EvidenceItem) : ℤ :=
  calculate_fact_check_confidence
    (calculate_source_diversity_score evidence)
    (min (evidence.length : ℤ) 5)

/-! ## Closed forms for the scoring helpers -/

theorem diversity_score_bounds (evidence : List EvidenceItem) :
    0 ≤ calculate_source_diversity_score evidence ∧
      calculate_source_diversity_score evidence ≤ 5 := by
  unfold calculate_source_diversity_score
  refine ⟨?_, ?_⟩ <;> split_ifs <;> norm_num

/-- On in-range scores the percentage formula collapses to
`10 * (sd + ec)`. -/
theorem confidence_closed (sd ec : ℤ)
    (h1 : 0 ≤ sd) (h2 : sd ≤ 5) (h3 : 0 ≤ ec) (h4 : ec ≤ 5) :
    calculate_fact_check_confidence sd ec = 10 * (sd + ec) := by
  unfold calculate_fact_check_confidence
  rw [if_neg (by omega), if_neg (by omega)]
  have hcast : (((sd : ℚ) + (ec : ℚ)) / 10) * 100 = ((10 * (sd + ec) : ℤ) : ℚ) := by
    push_cast
    ring
  rw [hcast, pythonRound_intCast]
  omega

theorem confidenceOf_closed (evidence : List EvidenceItem) :
    confidenceOf evidence =
      10 * (calculate_source_diversity_score evidence + min (evidence.length : ℤ) 5) := by
  have hd := diversity_score_bounds evidence
  unfold confidenceOf
  rw [confidence_closed _ _ hd.1 hd.2 (by positivity) (min_le_right _ _)]

theorem confidenceOf_bounds (evidence : List EvidenceItem) :
    0 ≤ confidenceOf evidence ∧ confidenceOf evidence ≤ 100 := by
  have hd := diversity_score_bounds evidence
  rw [confidenceOf_closed]
  have : (0 : ℤ) ≤ min (evidence.length : ℤ) 5 := by positivity
  have : min (evidence.length : ℤ) 5 ≤ 5 := min_le_right _ _
  omega

theorem confidenceOf_nil : confidenceOf [] = 0 := by
  rw [confidenceOf_closed]
  simp [calculate_source_diversity_score]

/-- Confidence of a non-empty validated-evidence list is at least 10
(at least one evidence clamps to count ≥ 1). -/
theorem confidenceOf_pos_of_ne_nil (evidence : List EvidenceItem)
    (h : evidence ≠ []) : 10 ≤ confidenceOf evidence := by
  have hd := diversity_score_bounds evidence
  rw [confidenceOf_closed]
  have hlen : 1 ≤ evidence.length := List.length_pos.mpr h
  have : (1 : ℤ) ≤ min (evidence.length : ℤ) 5 := by
    have : (1 : ℤ) ≤ (evidence.length : ℤ) := by exact_mod_cast hlen
    omega
  omega

/-! ## Spec-side scoring definitions (for the refinement claims) -/

/-- Spec wording (§4.5): map the number of distinct sources into the
band 0→0, 1→1, 2→3, 3→4, ≥4→5. -/
def diversityBand (n : Nat) : ℤ :=
  if n = 0 then 0
  else if n = 1 then 1
  else if n = 2 then 3
  else if n = 3 then 4
  else 5

/-- Claim C1 wording: `confidence = round(evidence_count*12 +
source_diversity*8)`, clamped to `[0, 100]`. -/
def specConfidenceC1 (source_diversity evidence_count : ℤ) : ℤ :=
  max 0 (min 100 (pythonRound ((evidence_count : ℚ) * 12 + (source_diversity : ℚ) * 8)))

theorem specConfidenceC1_closed (sd ec : ℤ)
    (h1 : 0 ≤ sd) (h2 : sd ≤ 5) (h3 : 0 ≤ ec) (h4 : ec ≤ 5) :
    specConfidenceC1 sd ec = ec * 12 + sd * 8 := by
  unfold specConfidenceC1
  have hcast : (ec : ℚ) * 12 + (sd : ℚ) * 8 = ((ec * 12 + sd * 8 : ℤ) : ℚ) := by
    push_cast
    ring
  rw [hcast, pythonRound_intCast]
  omega

/-! ## A small regex interpreter

`clean_evidence_content` (core/lambdas.py) is a pipeline of `re.sub`
calls whose patterns are plain concatenations of literals and character
classes under `+`, `*`, `?` and `{n}`/`{1,2}` quantifiers (no
alternation, no anchors, no groups).  We interpret exactly that
fragment, with Python's leftmost-then-greedy backtracking order.
Counted repetitions are unrolled (`\d{4}` into four single atoms,
`\d{1,2}` into an atom plus an optional atom).  Character classes are
modelled over the character sets that actually occur: `\s` and `\d` are
taken as their ASCII subsets (the strings these theorems evaluate on are
ASCII plus Hangul). -/

inductive RAtom where
  | lit : Char → RAtom
  | cls : Bool → List (Char × Char) → List Char → RAtom
deriving DecidableEq, Repr

inductive RPiece where
  | one : RAtom → RPiece
  | opt : RAtom → RPiece
  | star : RAtom → RPiece
  | plus : RAtom → RPiece
deriving DecidableEq, Repr

def inCls (ranges : List (Char × Char)) (singles : List Char) (c : Char) : Bool :=
  ranges.any (fun p => decide (p.1 ≤ c) && decide (c ≤ p.2)) || singles.contains c

/-- Atom matching; `ic` models `re.IGNORECASE` (all classes used here
are closed under case, so only literals need folding). -/
def matchAtom (ic : Bool) (a : RAtom) (c : Char) : Bool :=
  match a with
  | .lit l => if ic then l.toLower == c.toLower else l == c
  | .cls neg ranges singles => (inCls ranges singles c) != neg

/-- Match a concatenation of pieces at the head of the string; on
success return the remainder after the (greedy, Python-preference)
match.  Structural recursion on a fuel parameter so the kernel can
evaluate the function; every recursive call strictly decreases
`s.length + ps.length`, so fuel `s.length + ps.length + 1` is always
sufficient (see `matchSeq`). -/
def matchSeqF (ic : Bool) : Nat → List RPiece → List Char → Option (List Char)
  | 0, _, _ => none
  | _ + 1, [], s => some s
  | _ + 1, .one _ :: _, [] => none
  | f + 1, .one a :: ps1, c :: rest =>
    if matchAtom ic a c then matchSeqF ic f ps1 rest else none
  | f + 1, .opt _ :: ps1, [] => matchSeqF ic f ps1 []
  | f + 1, .opt a :: ps1, c :: rest =>
    (if matchAtom ic a c then matchSeqF ic f ps1 rest else none).orElse
      (fun _ => matchSeqF ic f ps1 (c :: rest))
  | _ + 1, .plus _ :: _, [] => none
  | f + 1, .plus a :: ps1, c :: rest =>
    if matchAtom ic a c then matchSeqF ic f (.star a :: ps1) rest else none
  | f + 1, .star _ :: ps1, [] => matchSeqF ic f ps1 []
  | f + 1, .star a :: ps1, c :: rest =>
    (if matchAtom ic a c then matchSeqF ic f (.star a :: ps1) rest else none).orElse
      (fun _ => matchSeqF ic f ps1 (c :: rest))

def matchSeq (ic : Bool) (ps : List RPiece) (s : List Char) : Option (List Char) :=
  matchSeqF ic (s.length + ps.length + 1) ps s

/-- Replace every non-overlapping leftmost match (`re.sub`).  The fuel
is the string length; every pattern below consumes at least one
character per match, so the fuel never runs out. -/
def subFuel (ic : Bool) (ps : List RPiece) (repl : List Char) :
    Nat → List Char → List Char
  | _, [] => []
  | 0, s => s
  | fuel + 1, c :: rest =>
    match matchSeq ic ps (c :: rest) with
    | some rem => repl ++ subFuel ic ps repl fuel rem
    | none => c :: subFuel ic ps repl fuel rest

def reSub (ic : Bool) (ps : List RPiece) (repl : String) (s : String) : String :=
  ⟨subFuel ic ps repl.data s.data.length s.data⟩

def reSubMany (ic : Bool) (pats : List (List RPiece)) (repl : String) (s : String) : String :=
  pats.foldl (fun acc p => reSub ic p repl acc) s

/-! ## The patterns of `clean_evidence_content` -/

def litSeq (s : String) : List RPiece := s.data.map (fun c => RPiece.one (RAtom.lit c))

/-- Hangul syllables `[가-힣]`. -/
def hangulCls : RAtom := .cls false [('가', '힣')] []

/-- `[A-Za-z]`. -/
def alphaCls : RAtom := .cls false [('A', 'Z'), ('a', 'z')] []

/-- `\d` (ASCII subset). -/
def digitCls : RAtom := .cls false [('0', '9')] []

/-- `\s` (ASCII subset: space, tab, newline, carriage return, vertical
tab, form feed). -/
def wsCls : RAtom := .cls false [] [' ', '\t', '\n', '\r', Char.ofNat 11, Char.ofNat 12]

/-- `[가-힣A-Za-z\s]`. -/
def hawCls : RAtom :=
  .cls false [('가', '힣'), ('A', 'Z'), ('a', 'z')]
    [' ', '\t', '\n', '\r', Char.ofNat 11, Char.ofNat 12]

/-- `[^>]`. -/
def notGtCls : RAtom := .cls true [] ['>']

/-- `[ \t]`. -/
def spaceTabCls : RAtom := .cls false [] [' ', '\t']

/-- `\d{4}`. -/
def fourDigits : List RPiece := List.replicate 4 (RPiece.one digitCls)

/-- `\d{1,2}` (greedy). -/
def oneTwoDigits : List RPiece := [.one digitCls, .opt digitCls]

/-- `\d{2}`. -/
def twoDigits : List RPiece := List.replicate 2 (RPiece.one digitCls)

/-- `<[^>]+>`, applied without flags. -/
def htmlTagPat : List RPiece := [.one (.lit '<'), .plus notGtCls, .one (.lit '>')]

/-- The `reporter_patterns` list, applied with `re.IGNORECASE`. -/
def reporterPats : List (List RPiece) :=
  [ [.plus hangulCls, .star wsCls] ++ litSeq ("기자"),
    [.plus alphaCls, .star wsCls] ++ litSeq ("기자"),
    litSeq ("기자") ++ [.star wsCls, .plus hangulCls],
    litSeq ("기자") ++ [.star wsCls, .plus alphaCls],
    [.plus hangulCls, .star wsCls, .plus alphaCls, .star wsCls] ++ litSeq ("기자"),
    [.plus alphaCls, .star wsCls, .plus hangulCls, .star wsCls] ++ litSeq ("기자"),
    litSeq ("기자") ++ [.star wsCls, .plus hangulCls, .star wsCls, .plus alphaCls],
    litSeq ("기자") ++ [.star wsCls, .plus alphaCls, .star wsCls, .plus hangulCls] ]

/-- The `copyright_patterns` list, applied with `re.IGNORECASE`. -/
def copyrightPats : List (List RPiece) :=
  [ litSeq ("Copyright") ++ [.star wsCls, .opt (.lit '©'), .star wsCls]
      ++ fourDigits ++ [.star wsCls, .plus hawCls],
    [.one (.lit '©'), .star wsCls] ++ fourDigits ++ [.star wsCls, .plus hawCls],
    litSeq ("저작권") ++ [.star wsCls, .opt (.lit '©'), .star wsCls]
      ++ fourDigits ++ [.star wsCls, .plus hawCls],
    litSeq ("무단전재") ++ [.star wsCls] ++ litSeq ("및") ++ [.star wsCls]
      ++ litSeq ("재배포") ++ [.star wsCls] ++ litSeq ("금지"),
    litSeq ("무단복제") ++ [.star wsCls] ++ litSeq ("금지"),
    litSeq ("All") ++ [.plus wsCls] ++ litSeq ("rights") ++ [.plus wsCls]
      ++ litSeq ("reserved"),
    litSeq ("저작권자") ++ [.star wsCls, .plus hawCls],
    litSeq ("본사") ++ [.star wsCls, .plus hawCls],
    litSeq ("신문사") ++ [.star wsCls, .plus hawCls],
    litSeq ("뉴스사") ++ [.star wsCls, .plus hawCls] ]

/-- The `media_patterns` list, applied with `re.IGNORECASE`. -/
def mediaPats : List (List RPiece) :=
  [ [.one (.lit '['), .plus hawCls, .one (.lit ']')],
    [.one (.lit '('), .plus hawCls, .one (.lit ')')],
    [.plus hawCls] ++ litSeq ("뉴스"),
    [.plus hawCls] ++ litSeq ("신문"),
    [.plus hawCls] ++ litSeq ("일보"),
    [.plus hawCls] ++ litSeq ("경제") ]

/-- The `date_patterns` list, applied without flags. -/
def datePats : List (List RPiece) :=
  [ fourDigits ++ litSeq ("년") ++ [.star wsCls] ++ oneTwoDigits ++ litSeq ("월")
      ++ [.star wsCls] ++ oneTwoDigits ++ litSeq ("일"),
    fourDigits ++ [.one (.lit '-')] ++ oneTwoDigits ++ [.one (.lit '-')] ++ oneTwoDigits,
    oneTwoDigits ++ [.one (.lit ':')] ++ twoDigits,
    litSeq ("오전") ++ [.star wsCls] ++ oneTwoDigits ++ [.one (.lit ':')] ++ twoDigits,
    litSeq ("오후") ++ [.star wsCls] ++ oneTwoDigits ++ [.one (.lit ':')] ++ twoDigits ]

/-- `[ \t]+`, replaced by a single space. -/
def runSpacePat : List RPiece := [.plus spaceTabCls]

/-- Consecutive line breaks `\n\s*\n`, replaced by a single newline. -/
def nlRunPat : List RPiece := [.one (.lit '\n'), .star wsCls, .one (.lit '\n')]

def isPySpace (c : Char) : Bool :=
  c == ' ' || c == '\t' || c == '\n' || c == '\r' || c == Char.ofNat 11 || c == Char.ofNat 12

/-- Python `str.strip()` (ASCII whitespace subset). -/
def pyStrip (s : String) : String :=
  ⟨((s.data.dropWhile isPySpace).reverse.dropWhile isPySpace).reverse⟩

/-- Model of `clean_evidence_content` (core/lambdas.py): the exact
`re.sub` pipeline, whitespace normalisation, and strip.  The guard
`if len(content) < 50` in the source returns `content` in both branches
(the short-circuit comment notwithstanding), which we reproduce. -/
def clean_evidence_content (content : String) : String :=
  if content = "" then ""
  else
    let c1 := reSub false htmlTagPat ("") content
    let c2 := reSubMany true reporterPats ("") c1
    let c3 := reSubMany true copyrightPats ("") c2
    let c4 := reSubMany true mediaPats ("") c3
    let c5 := reSubMany false datePats ("") c4
    let c6 := reSub false runSpacePat (" ") c5
    let c7 := reSub false nlRunPat ("\n") c6
    let c8 := pyStrip c7
    if c8.length < 50 then c8 else c8

/-- Model of `clean_evidence_json` (core/lambdas.py): copy each item and
rewrite only the `snippet` and `justification` fields through
`clean_evidence_content` (both keys are always present on the evidence
dicts produced by `factcheck_doc`). -/
def clean_evidence_json (evidence_list : List EvidenceItem) : List EvidenceItem :=
  evidence_list.map fun e =>
    { e with
      snippet := clean_evidence_content e.snippet
      justification := clean_evidence_content e.justification }

/-! ## Per-claim cascade (`process_claim_step`, services/fact_checker.py)

The retrieval-plus-judging of one pass is modelled by an oracle
`retrieve dirs seen useGoogle`: it stands for
`search_and_retrieve_docs_once(claim, dirs, seen, use_google_cse)`
followed by the batched `factcheck_doc` loop over the returned
documents.  `none` models "the retrieval returned no documents"
(`if not new_docs` / `if google_docs` / `if partition_9_docs` being
falsy); `some ev` models "documents were found and `ev` is the
validated evidence collected from them" (possibly empty).  Each trace
records the arguments of every retrieval invocation — the source passes
a fresh `set()` as `seen_urls` at all three call sites (lines 487, 526
and 584). -/

structure RetrievalCall where
  dirs : List String
  seen : List String
  useGoogle : Bool
deriving DecidableEq, Repr

structure ClaimOutput where
  claim : String
  result : String
  confidence_score : ℤ
  evidence : List EvidenceItem
  error : Option String
deriving DecidableEq, Repr

structure ClaimTrace where
  googleRan : Bool
  p9Ran : Bool
  finalEvidence : List EvidenceItem
  calls : List RetrievalCall
deriving DecidableEq, Repr

/-- Fallback selection (lines 546-560 and 604-618): when the fallback
pass validated a non-empty evidence list, compute its confidence and
replace the current best iff strictly greater; otherwise keep the
current best. -/
def selectBetter (best : ℤ × List EvidenceItem)
    (passResult : Option (List EvidenceItem)) : ℤ × List EvidenceItem :=
  match passResult with
  | none => best
  | some ev =>
    if ev ≠ [] then
      if confidenceOf ev > best.1 then (confidenceOf ev, ev) else best
    else best

/-- Partition-9 directory filter (line 576):
`[dir for dir in faiss_partition_dirs if "9" in dir]`. -/
def p9Filter (dirs : List String) : List String :=
  dirs.filter (fun d => d.data.contains '9')

/-- State after the Google-CSE cascade (lines 518-566), starting from
the primary pass's `(confidence, evidence)`. -/
def stage2 (dirs : List String)
    (retrieve : List String → List String → Bool → Option (List EvidenceItem))
    (ev1 : List EvidenceItem) : ℤ × List EvidenceItem :=
  if confidenceOf ev1 ≤ 20 then
    selectBetter (confidenceOf ev1, ev1) (retrieve dirs [] true)
  else (confidenceOf ev1, ev1)

/-- State after the partition-9 cascade (lines 568-624): fires when the
chosen confidence is still ≤ 20 and the chosen evidence is non-empty;
the retrieval itself happens only when some partition directory
contains the character `9`. -/
def stage3 (dirs : List String)
    (retrieve : List String → List String → Bool → Option (List EvidenceItem))
    (s2 : ℤ × List EvidenceItem) : ℤ × List EvidenceItem :=
  if s2.1 ≤ 20 ∧ s2.2 ≠ [] ∧ p9Filter dirs ≠ [] then
    selectBetter s2 (retrieve (p9Filter dirs) [] false)
  else s2

/-- Model of `process_claim_step` (lines 445-634).  When the primary
retrieval yields no documents the function returns immediately with
`insufficient_evidence`, confidence 0 and no evidence, skipping both
cascades; otherwise it runs the two cascades and emits the cleaned
first three accepted evidences. -/
def process_claim_step (claim : String) (dirs : List String)
    (retrieve : List String → List String → Bool → Option (List EvidenceItem)) :
    ClaimOutput × ClaimTrace :=
  match retrieve dirs [] false with
  | none =>
    (⟨claim, ("insufficient_evidence"), 0, [], none⟩,
     ⟨false, false, [], [⟨dirs, [], false⟩]⟩)
  | some ev1 =>
    (⟨claim,
      if (stage3 dirs retrieve (stage2 dirs retrieve ev1)).2 ≠ [] then ("likely_true")
      else ("insufficient_evidence"),
      (stage3 dirs retrieve (stage2 dirs retrieve ev1)).1,
      clean_evidence_json ((stage3 dirs retrieve (stage2 dirs retrieve ev1)).2.take 3),
      none⟩,
     ⟨decide (confidenceOf ev1 ≤ 20),
      decide ((stage2 dirs retrieve ev1).1 ≤ 20 ∧ (stage2 dirs retrieve ev1).2 ≠ []),
      (stage3 dirs retrieve (stage2 dirs retrieve ev1)).2,
      [⟨dirs, [], false⟩]
        ++ (if confidenceOf ev1 ≤ 20 then [⟨dirs, [], true⟩] else [])
        ++ (if (stage2 dirs retrieve ev1).1 ≤ 20 ∧ (stage2 dirs retrieve ev1).2 ≠ []
              ∧ p9Filter dirs ≠ [] then [⟨p9Filter dirs, [], false⟩] else [])⟩)

/-! ## Exception-absorbing gather (run_fact_check, lines 636-665)

`runOne i claim` is the oracle for the i-th `process_claim_step` task:
`.ok` a ClaimOutput, or `.error` a raised Python exception (with its
type name, `str(..)` and `repr(..)`). -/

structure PyExn where
  typeName : String
  strMsg : String
  reprMsg : String
deriving DecidableEq, Repr

/-- Python `str(e) or repr(e) or type(e).__name__` (line 653). -/
def errMsgOf (e : PyExn) : String :=
  if e.strMsg ≠ "" then e.strMsg
  else if e.reprMsg ≠ "" then e.reprMsg
  else e.typeName

/-- The error-slot entry appended for a claim whose task raised (lines
655-663; the extra `error_type`/`error_stage` keys are not modelled). -/
def errorOutput (claimText : String) (e : PyExn) : ClaimOutput :=
  ⟨claimText, ("error"), 0, [], some (e.typeName ++ (": ") ++ errMsgOf e)⟩

def gatherOutputsFrom (runOne : Nat → String → Except PyExn ClaimOutput)
    (allClaims : List String) : Nat → List String → List ClaimOutput
  | _, [] => []
  | i, c :: rest =>
    (match runOne i c with
     | .ok r => r
     | .error e => errorOutput (allClaims.getD i ("")) e) ::
      gatherOutputsFrom runOne allClaims (i + 1) rest

/-- One task per reduced claim, gathered in order; an exception yields
an error-tagged output whose claim text is `claims_to_check[i]`. -/
def gatherOutputs (claims : List String)
    (runOne : Nat → String → Except PyExn ClaimOutput) : List ClaimOutput :=
  gatherOutputsFrom runOne claims 0 claims

/-! ## Aggregate confidence

The video pipeline (`run_fact_check`, lines 667-698) computes a
weighted mean with a floor substitution; the article pipeline
(`run_article_fact_check`, lines 320-330) computes a plain rounded
mean. -/

/-- Floor substitution (lines 676-678): a claim with confidence 0 and
no emitted evidence contributes confidence 10. -/
def substConfidence (o : ClaimOutput) : ℤ :=
  if o.confidence_score = 0 ∧ o.evidence.length = 0 then 10 else o.confidence_score

/-- Weight of one claim (lines 680-684):
`min(evidence_count + 1, 5) * max(confidence / 20, 0.5)`. -/
def claimWeight (o : ClaimOutput) : ℚ :=
  min ((o.evidence.length : ℚ) + 1) 5 * max ((substConfidence o : ℚ) / 20) (1 / 2)

/-- The accumulation loop of run_fact_check: sums of
`confidence * weight` and of `weight`, then
`round(total_weighted_score / total_weight)` guarded by
`total_weight > 0`; 0 when there are no outputs. -/
def aggregate_confidence (outputs : List ClaimOutput) : ℤ :=
  if outputs ≠ [] then
    if (outputs.foldl (fun acc o =>
          (acc.1 + (substConfidence o : ℚ) * claimWeight o, acc.2 + claimWeight o))
        ((0 : ℚ), (0 : ℚ))).2 > 0 then
      pythonRound
        ((outputs.foldl (fun acc o =>
            (acc.1 + (substConfidence o : ℚ) * claimWeight o, acc.2 + claimWeight o))
          ((0 : ℚ), (0 : ℚ))).1 /
         (outputs.foldl (fun acc o =>
            (acc.1 + (substConfidence o : ℚ) * claimWeight o, acc.2 + claimWeight o))
          ((0 : ℚ), (0 : ℚ))).2)
    else 0
  else 0

/-- Spec wording of the aggregate (§4.6 step 7):
`round(Σ(confidence*weight) / Σ(weight))`, or 0 on an empty claim
set. -/
def aggregate_spec (outputs : List ClaimOutput) : ℤ :=
  if outputs = [] then 0
  else
    pythonRound
      ((outputs.map (fun o => (substConfidence o : ℚ) * claimWeight o)).sum /
        (outputs.map claimWeight).sum)

/-- Aggregate of `run_article_fact_check` (line 321):
`round(sum(confidence_score) / len(outputs))`, 0 when empty. -/
def article_aggregate (outputs : List ClaimOutput) : ℤ :=
  if outputs ≠ [] then
    pythonRound
      ((outputs.map (fun o => (o.confidence_score : ℚ))).sum / (outputs.length : ℚ))
  else 0

/-! ## ArticleIndexCache (`ensure_article_faiss`, lines 111-153)

One call, inside the per-URL lock.  The environment records the outcome
of each external interaction: the state of the local cache directory
(both index files present and loadable / present but loading raises /
absent), whether the S3 client exists, whether `download_from_s3`
succeeded and whether the downloaded index loads, and the text returned
by `get_article_text` (which returns `""` on every failure path, so the
function itself raises nothing).  The effect list records what the call
did, in order. -/

inductive TierLoad | hit | corrupt | miss
deriving DecidableEq, Repr

inductive FaissIndex
  | fromLocal
  | fromS3
  | fromDoc (url text : String)
deriving DecidableEq, Repr

inductive ArticleEffect | fetchBody | buildIndex | saveLocal | uploadS3 | removeLocalDir
deriving DecidableEq, Repr

structure ArticleEnv where
  localTier : TierLoad
  s3Client : Bool
  s3Download : Bool
  s3Load : Bool
  fetchText : String
deriving DecidableEq, Repr

/-- Lines 137-153: fetch the body; return `None` when it is falsy or
shorter than 200 characters, otherwise build a one-document index,
persist locally, and upload to S3 best-effort (upload failure is caught
and does not change the result). -/
def fetchAndBuild (url : String) (env : ArticleEnv) (effs : List ArticleEffect) :
    Option FaissIndex × List ArticleEffect :=
  if env.fetchText = "" ∨ env.fetchText.length < 200 then
    (none, effs ++ [.fetchBody])
  else
    (some (.fromDoc url env.fetchText),
     effs ++ [.fetchBody, .buildIndex, .saveLocal]
       ++ (if env.s3Client then [.uploadS3] else []))

/-- Model of `ensure_article_faiss`: local tier, then S3 tier, then
fresh fetch; any corrupt load removes the local directory and falls
through to the next tier. -/
def ensure_article_faiss (url : String) (env : ArticleEnv) :
    Option FaissIndex × List ArticleEffect :=
  match env.localTier with
  | .hit => (some .fromLocal, [])
  | .corrupt =>
    if env.s3Client = true ∧ env.s3Download = true then
      if env.s3Load = true then (some .fromS3, [.removeLocalDir])
      else fetchAndBuild url env [.removeLocalDir, .removeLocalDir]
    else fetchAndBuild url env [.removeLocalDir]
  | .miss =>
    if env.s3Client = true ∧ env.s3Download = true then
      if env.s3Load = true then (some .fromS3, [])
      else fetchAndBuild url env [.removeLocalDir]
    else fetchAndBuild url env []

/-! ## Single-flight materialization (C9)

`ensure_article_faiss` serialises all work for one URL behind
`url_locks.setdefault(url, asyncio.Lock())`.  We model `k` concurrent
callers for the same (previously uncached) URL as an interleaved
transition system: each task acquires the lock, re-checks the cache
(line 121), on a miss fetches the body (line 138) and, when the fetch
yields a long-enough body, saves the index (line 144) — which populates
the cache — and releases the lock.  The S3 tier is absent (the claim's
scenario instruments a fresh URL), and the fetched body is assumed
adequate, matching the spec's instrumented-fetcher test.  `fetchCount`
counts `FetchArticleBody` invocations. -/

inductive SFPhase | ready | holding | fetching | saving | finished
deriving DecidableEq, Repr

structure SFState (k : Nat) where
  phases : Fin k → SFPhase
  lockHeld : Option (Fin k)
  cached : Bool
  fetchCount : Nat

def sfInit (k : Nat) : SFState k := ⟨fun _ => .ready, none, false, 0⟩

def setPhase {k : Nat} (s : SFState k) (t : Fin k) (p : SFPhase) : Fin k → SFPhase :=
  fun t2 => if t2 = t then p else s.phases t2

/-- Interleaving semantics of the `k` callers.  `acquire` is
`async with lock` (only when no one holds the lock); `checkHit` is the
post-lock cache re-check succeeding (return without fetching);
`checkMiss` starts `get_article_text` (counted); `fetchDone` finishes
the fetch; `save` persists the index (populating the cache for later
callers) and releases the lock. -/
inductive SFStep {k : Nat} : SFState k → SFState k → Prop
  | acquire (t : Fin k) (s : SFState k) :
      s.phases t = .ready → s.lockHeld = none →
      SFStep s ⟨setPhase s t .holding, some t, s.cached, s.fetchCount⟩
  | checkHit (t : Fin k) (s : SFState k) :
      s.phases t = .holding → s.cached = true →
      SFStep s ⟨setPhase s t .finished, none, s.cached, s.fetchCount⟩
  | checkMiss (t : Fin k) (s : SFState k) :
      s.phases t = .holding → s.cached = false →
      SFStep s ⟨setPhase s t .fetching, s.lockHeld, s.cached, s.fetchCount + 1⟩
  | fetchDone (t : Fin k) (s : SFState k) :
      s.phases t = .fetching →
      SFStep s ⟨setPhase s t .saving, s.lockHeld, s.cached, s.fetchCount⟩
  | save (t : Fin k) (s : SFState k) :
      s.phases t = .saving →
      SFStep s ⟨setPhase s t .finished, none, true, s.fetchCount⟩

def SFReachable {k : Nat} (s : SFState k) : Prop :=
  Relation.ReflTransGen SFStep (sfInit k) s

/-- A task holds an in-flight materialization while fetching or
saving. -/
def inFlight {k : Nat} (s : SFState k) (t : Fin k) : Prop :=
  s.phases t = .fetching ∨ s.phases t = .saving

instance instDecidableInFlight {k : Nat} (s : SFState k) (t : Fin k) :
    Decidable (inFlight s t) :=
  inferInstanceAs (Decidable (_ ∨ _))

def SFInv {k : Nat} (s : SFState k) : Prop :=
  (∀ t : Fin k,
    (s.phases t = .holding ∨ s.phases t = .fetching ∨ s.phases t = .saving) →
      s.lockHeld = some t) ∧
  (s.fetchCount = (if s.cached then 1 else 0) +
    (if ∃ t : Fin k, inFlight s t then 1 else 0)) ∧
  ((∃ t : Fin k, inFlight s t) → s.cached = false) ∧
  ((∃ t : Fin k, s.phases t = .finished) → s.cached = true)

theorem setPhase_self {k : Nat} (s : SFState k) (t : Fin k) (p : SFPhase) :
    setPhase s t p t = p := by
  simp [setPhase]

theorem setPhase_other {k : Nat} (s : SFState k) (t t2 : Fin k) (p : SFPhase)
    (h : t2 ≠ t) : setPhase s t p t2 = s.phases t2 := by
  simp [setPhase, h]

theorem sfPhases_mk {k : Nat} (ph : Fin k → SFPhase) (lh : Option (Fin k))
    (c : Bool) (f : Nat) : (⟨ph, lh, c, f⟩ : SFState k).phases = ph := rfl

theorem setPhase_cases {k : Nat} {s : SFState k} {t t2 : Fin k} {p q : SFPhase}
    (h : setPhase s t p t2 = q) :
    (t2 = t ∧ p = q) ∨ (t2 ≠ t ∧ s.phases t2 = q) := by
  by_cases ht2 : t2 = t
  · subst ht2
    rw [setPhase_self] at h
    exact Or.inl ⟨rfl, h⟩
  · rw [setPhase_other _ _ _ _ ht2] at h
    exact Or.inr ⟨ht2, h⟩

theorem inFlight_mk {k : Nat} (ph : Fin k → SFPhase) (lh : Option (Fin k))
    (c : Bool) (f : Nat) (t2 : Fin k) :
    inFlight (⟨ph, lh, c, f⟩ : SFState k) t2 ↔ (ph t2 = .fetching ∨ ph t2 = .saving) :=
  Iff.rfl

/-- If the phase written is not an in-flight phase and no task other
than the written one was in flight, nobody is in flight afterwards. -/
theorem no_inFlight_setPhase {k : Nat} {s : SFState k} {t : Fin k} {p : SFPhase}
    (hp1 : p ≠ SFPhase.fetching) (hp2 : p ≠ SFPhase.saving)
    (hothers : ∀ t2, t2 ≠ t → ¬inFlight s t2) (lh : Option (Fin k)) (c : Bool) (f : Nat) :
    ¬∃ t2, inFlight (⟨setPhase s t p, lh, c, f⟩ : SFState k) t2 := by
  rintro ⟨t2, h2⟩
  rw [inFlight_mk] at h2
  rcases h2 with h2 | h2 <;> rcases setPhase_cases h2 with ⟨_, hq⟩ | ⟨hne, hq⟩
  · exact hp1 hq
  · exact hothers t2 hne (Or.inl hq)
  · exact hp2 hq
  · exact hothers t2 hne (Or.inr hq)

theorem sfInv_init (k : Nat) : SFInv (sfInit k) := by
  have hnone : ¬∃ t : Fin k, inFlight (sfInit k) t := by
    rintro ⟨t, ht | ht⟩ <;> simp [sfInit, inFlight] at ht
  refine ⟨?_, ?_, ?_, ?_⟩
  · intro t h
    simp [sfInit] at h
  · rw [if_neg hnone]
    simp [sfInit]
  · intro h
    exact absurd h hnone
  · rintro ⟨t, ht⟩
    simp [sfInit] at ht

theorem sfInv_step {k : Nat} {s s2 : SFState k}
    (hinv : SFInv s) (hstep : SFStep s s2) : SFInv s2 := by
  obtain ⟨I1, I2, I3, I4⟩ := hinv
  cases hstep with
  | acquire t _ hp hl =>
    have honly : ∀ t2, t2 ≠ t → ¬inFlight s t2 := by
      intro t2 _ h2
      have h3 := I1 t2 (Or.inr h2)
      rw [hl] at h3
      exact Option.noConfusion h3
    have hnoFld : ¬∃ t2 : Fin k, inFlight s t2 := by
      rintro ⟨t2, h2⟩
      have h3 := I1 t2 (Or.inr h2)
      rw [hl] at h3
      exact Option.noConfusion h3
    have hnoFl2 := no_inFlight_setPhase (s := s) (t := t) (p := .holding)
      (by intro h; exact SFPhase.noConfusion h) (by intro h; exact SFPhase.noConfusion h)
      honly (some t) s.cached s.fetchCount
    refine ⟨?_, ?_, ?_, ?_⟩
    · intro t2 h2
      rw [sfPhases_mk] at h2
      rcases h2 with h2 | h2 | h2 <;> rcases setPhase_cases h2 with ⟨he, hq⟩ | ⟨hne, hq⟩
      · rw [he]
      · have h3 := I1 t2 (Or.inl hq)
        rw [hl] at h3
        exact Option.noConfusion h3
      · exact SFPhase.noConfusion hq
      · have h3 := I1 t2 (Or.inr (Or.inl hq))
        rw [hl] at h3
        exact Option.noConfusion h3
      · exact SFPhase.noConfusion hq
      · have h3 := I1 t2 (Or.inr (Or.inr hq))
        rw [hl] at h3
        exact Option.noConfusion h3
    · rw [if_neg hnoFl2]
      show s.fetchCount = (if s.cached = true then 1 else 0) + 0
      rw [I2, if_neg hnoFld]
    · intro h2
      exact absurd h2 hnoFl2
    · rintro ⟨t2, h2⟩
      rw [sfPhases_mk] at h2
      rcases setPhase_cases h2 with ⟨_, hq⟩ | ⟨_, hq⟩
      · exact SFPhase.noConfusion hq
      · exact I4 ⟨t2, hq⟩
  | checkHit t _ hp hc =>
    have hnoFld : ¬∃ t2 : Fin k, inFlight s t2 := by
      rintro ⟨t2, h2⟩
      rw [I3 ⟨t2, h2⟩] at hc
      exact Bool.noConfusion hc
    have honly : ∀ t2, t2 ≠ t → ¬inFlight s t2 := fun t2 _ h2 => hnoFld ⟨t2, h2⟩
    have hnoFl2 := no_inFlight_setPhase (s := s) (t := t) (p := .finished)
      (by intro h; exact SFPhase.noConfusion h) (by intro h; exact SFPhase.noConfusion h)
      honly none s.cached s.fetchCount
    refine ⟨?_, ?_, ?_, ?_⟩
    · intro t2 h2
      exfalso
      rw [sfPhases_mk] at h2
      have hlock := I1 t (Or.inl hp)
      rcases h2 with h2 | h2 | h2 <;> rcases setPhase_cases h2 with ⟨_, hq⟩ | ⟨hne, hq⟩
      · exact SFPhase.noConfusion hq
      · have h3 := I1 t2 (Or.inl hq)
        rw [hlock] at h3
        exact hne (Option.some.inj h3).symm
      · exact SFPhase.noConfusion hq
      · exact hnoFld ⟨t2, Or.inl hq⟩
      · exact SFPhase.noConfusion hq
      · exact hnoFld ⟨t2, Or.inr hq⟩
    · rw [if_neg hnoFl2]
      show s.fetchCount = (if s.cached = true then 1 else 0) + 0
      rw [I2, if_neg hnoFld]
    · intro h2
      exact absurd h2 hnoFl2
    · intro _
      exact hc
  | checkMiss t _ hp hc =>
    have hlock : s.lockHeld = some t := I1 t (Or.inl hp)
    have honly : ∀ t2, t2 ≠ t → ¬inFlight s t2 := by
      intro t2 hne h2
      have h3 := I1 t2 (Or.inr h2)
      rw [hlock] at h3
      exact hne (Option.some.inj h3).symm
    have hnoFld : ¬∃ t2 : Fin k, inFlight s t2 := by
      rintro ⟨t2, h2⟩
      by_cases hne : t2 = t
      · subst hne
        rcases h2 with h2 | h2 <;> rw [hp] at h2 <;> exact SFPhase.noConfusion h2
      · exact honly t2 hne h2
    have hFl2 : ∃ t2 : Fin k,
        inFlight (⟨setPhase s t .fetching, s.lockHeld, s.cached, s.fetchCount + 1⟩ :
          SFState k) t2 :=
      ⟨t, Or.inl (setPhase_self ..)⟩
    refine ⟨?_, ?_, ?_, ?_⟩
    · intro t2 h2
      rw [sfPhases_mk] at h2
      rcases h2 with h2 | h2 | h2 <;> rcases setPhase_cases h2 with ⟨he, _⟩ | ⟨hne, hq⟩
      · rw [he]
        exact hlock
      · have h3 := I1 t2 (Or.inl hq)
        rw [hlock] at h3
        exact absurd (Option.some.inj h3).symm hne
      · rw [he]
        exact hlock
      · exact absurd (Or.inl hq) (honly t2 hne)
      · rw [he]
        exact hlock
      · exact absurd (Or.inr hq) (honly t2 hne)
    · rw [if_pos hFl2]
      show s.fetchCount + 1 = (if s.cached = true then 1 else 0) + 1
      rw [I2, if_neg hnoFld]
    · intro _
      exact hc
    · rintro ⟨t2, h2⟩
      rw [sfPhases_mk] at h2
      rcases setPhase_cases h2 with ⟨_, hq⟩ | ⟨_, hq⟩
      · exact SFPhase.noConfusion hq
      · rw [I4 ⟨t2, hq⟩] at hc
        exact Bool.noConfusion hc
  | fetchDone t _ hp =>
    have hlock : s.lockHeld = some t := I1 t (Or.inr (Or.inl hp))
    have hcache : s.cached = false := I3 ⟨t, Or.inl hp⟩
    have honly : ∀ t2, t2 ≠ t → ¬inFlight s t2 := by
      intro t2 hne h2
      have h3 := I1 t2 (Or.inr h2)
      rw [hlock] at h3
      exact hne (Option.some.inj h3).symm
    have hFld : ∃ t2 : Fin k, inFlight s t2 := ⟨t, Or.inl hp⟩
    have hFl2 : ∃ t2 : Fin k,
        inFlight (⟨setPhase s t .saving, s.lockHeld, s.cached, s.fetchCount⟩ :
          SFState k) t2 :=
      ⟨t, Or.inr (setPhase_self ..)⟩
    refine ⟨?_, ?_, ?_, ?_⟩
    · intro t2 h2
      rw [sfPhases_mk] at h2
      rcases h2 with h2 | h2 | h2 <;> rcases setPhase_cases h2 with ⟨he, _⟩ | ⟨hne, hq⟩
      · rw [he]
        exact hlock
      · exact I1 t2 (Or.inl hq)
      · rw [he]
        exact hlock
      · exact I1 t2 (Or.inr (Or.inl hq))
      · rw [he]
        exact hlock
      · exact I1 t2 (Or.inr (Or.inr hq))
    · rw [if_pos hFl2]
      show s.fetchCount = (if s.cached = true then 1 else 0) + 1
      rw [I2, if_pos hFld]
    · intro _
      exact hcache
    · rintro ⟨t2, h2⟩
      rw [sfPhases_mk] at h2
      rcases setPhase_cases h2 with ⟨_, hq⟩ | ⟨_, hq⟩
      · exact SFPhase.noConfusion hq
      · rw [I4 ⟨t2, hq⟩] at hcache
        exact Bool.noConfusion hcache
  | save t _ hp =>
    have hlock : s.lockHeld = some t := I1 t (Or.inr (Or.inr hp))
    have hcache : s.cached = false := I3 ⟨t, Or.inr hp⟩
    have honly : ∀ t2, t2 ≠ t → ¬inFlight s t2 := by
      intro t2 hne h2
      have h3 := I1 t2 (Or.inr h2)
      rw [hlock] at h3
      exact hne (Option.some.inj h3).symm
    have hFld : ∃ t2 : Fin k, inFlight s t2 := ⟨t, Or.inr hp⟩
    have hnoFl2 := no_inFlight_setPhase (s := s) (t := t) (p := .finished)
      (by intro h; exact SFPhase.noConfusion h) (by intro h; exact SFPhase.noConfusion h)
      honly none true s.fetchCount
    refine ⟨?_, ?_, ?_, ?_⟩
    · intro t2 h2
      exfalso
      rw [sfPhases_mk] at h2
      rcases h2 with h2 | h2 | h2 <;> rcases setPhase_cases h2 with ⟨_, hq⟩ | ⟨hne, hq⟩
      · exact SFPhase.noConfusion hq
      · have h3 := I1 t2 (Or.inl hq)
        rw [hlock] at h3
        exact hne (Option.some.inj h3).symm
      · exact SFPhase.noConfusion hq
      · exact honly t2 hne (Or.inl hq)
      · exact SFPhase.noConfusion hq
      · exact honly t2 hne (Or.inr hq)
    · rw [if_neg hnoFl2]
      show s.fetchCount = (if (true : Bool) = true then 1 else 0) + 0
      rw [I2, if_pos hFld, hcache]
      simp
    · intro h2
      exact absurd h2 hnoFl2
    · intro _
      rfl

theorem sfInv_reachable {k : Nat} {s : SFState k} (h : SFReachable s) : SFInv s := by
  induction h with
  | refl => exact sfInv_init k
  | tail _ hstep ih => exact sfInv_step ih hstep

/-! ## Helper lemmas: aggregates and gather -/

theorem foldl_pair_eq (f g : ClaimOutput → ℚ) (l : List ClaimOutput) (a b : ℚ) :
    l.foldl (fun acc o => (acc.1 + f o, acc.2 + g o)) (a, b) =
      (a + (l.map f).sum, b + (l.map g).sum) := by
  induction l generalizing a b with
  | nil => simp
  | cons x xs ih =>
    rw [List.foldl_cons, ih]
    simp [add_assoc]

theorem claimWeight_pos (o : ClaimOutput) : 0 < claimWeight o := by
  unfold claimWeight
  have h1 : (1 : ℚ) ≤ min ((o.evidence.length : ℚ) + 1) 5 := by
    refine le_min ?_ (by norm_num)
    have : (0 : ℚ) ≤ (o.evidence.length : ℚ) := by positivity
    linarith
  have h2 : (1 / 2 : ℚ) ≤ max ((substConfidence o : ℚ) / 20) (1 / 2) := le_max_right _ _
  nlinarith

theorem weights_sum_pos (outputs : List ClaimOutput) (h : outputs ≠ []) :
    0 < ((outputs.map claimWeight).sum : ℚ) := by
  apply List.sum_pos
  · intro q hq
    obtain ⟨o, _, rfl⟩ := List.mem_map.mp hq
    exact claimWeight_pos o
  · simpa using h

theorem aggregate_confidence_eq_spec (outputs : List ClaimOutput) :
    aggregate_confidence outputs = aggregate_spec outputs := by
  cases outputs with
  | nil => simp [aggregate_confidence, aggregate_spec]
  | cons o os =>
    unfold aggregate_confidence aggregate_spec
    rw [if_pos (show (o :: os) ≠ [] by simp), if_neg (show ¬(o :: os) = [] by simp),
      foldl_pair_eq]
    rw [if_pos]
    · simp
    · simpa using weights_sum_pos (o :: os) (by simp)

theorem getD_of_get? : ∀ (l : List String) (n : Nat) (c : String),
    l.get? n = some c → ∀ d, l.getD n d = c := by
  intro l
  induction l with
  | nil => intro n c h d; simp at h
  | cons x xs ih =>
    intro n c h d
    cases n with
    | zero =>
      simp at h
      simp [List.getD, h]
    | succ n =>
      simp at h
      simpa [List.getD] using ih n c (by simpa using h) d

theorem gatherOutputsFrom_length (runOne : Nat → String → Except PyExn ClaimOutput)
    (allClaims : List String) :
    ∀ (i : Nat) (l : List String),
      (gatherOutputsFrom runOne allClaims i l).length = l.length := by
  intro i l
  induction l generalizing i with
  | nil => rfl
  | cons c rest ih => simp [gatherOutputsFrom, ih]

theorem gatherOutputsFrom_get? (runOne : Nat → String → Except PyExn ClaimOutput)
    (allClaims : List String) :
    ∀ (rest : List String) (start j : Nat) (c : String),
      rest.get? j = some c → allClaims.get? (start + j) = some c →
      (gatherOutputsFrom runOne allClaims start rest).get? j =
        some (match runOne (start + j) c with
              | .ok r => r
              | .error e => errorOutput c e) := by
  intro rest
  induction rest with
  | nil =>
    intro start j c h _
    simp at h
  | cons c0 rest ih =>
    intro start j c h hall
    cases j with
    | zero =>
      have hc : c0 = c := by simpa using h
      subst hc
      have hgd : allClaims.getD start ("") = c0 := getD_of_get? _ _ _ (by simpa using hall) _
      simp only [gatherOutputsFrom, List.get?_cons_zero, Nat.add_zero, hgd]
    | succ j =>
      have h2 : rest.get? j = some c := by simpa using h
      have hall2 : allClaims.get? (start + 1 + j) = some c := by
        rw [show start + 1 + j = start + (j + 1) by omega]
        exact hall
      have := ih (start + 1) j c h2 hall2
      rw [show start + (j + 1) = start + 1 + j by omega]
      simpa [gatherOutputsFrom] using this

/-! ## Concrete items used by witnesses and counterexamples -/

def evA1 : EvidenceItem := ⟨("http://a.com/1"), ("yes"), ("fact"), ("just"), ("snip"), ("")⟩

def evA2 : EvidenceItem := ⟨("http://a.com/2"), ("yes"), ("fact"), ("just"), ("snip"), ("")⟩

def evD : EvidenceItem := ⟨("http://b.com/1"), ("yes"), ("fact"), ("just"), ("snip"), ("")⟩

def evB : EvidenceItem := ⟨("http://a.com/1"), ("yes"), ("z"), ("y"), ("<b>x</b>"), ("")⟩

theorem pythonRound_thirty : pythonRound ((30 : ℚ)) = 30 := by
  rw [show ((30 : ℚ)) = (((30 : ℤ)) : ℚ) by norm_num, pythonRound_intCast]

theorem pythonRound_fiftyEight : pythonRound ((58 : ℚ)) = 58 := by
  rw [show ((58 : ℚ)) = (((58 : ℤ)) : ℚ) by norm_num, pythonRound_intCast]

/-! ## Claim C1 -/

/-- C1 counterexample: two accepted evidences from a single source
(`a.com`), so `evidence_count = 2` and `source_diversity = 1`.  The
claimed formula `round(ec*12 + sd*8)` gives 32, but the code
(`calculate_fact_check_confidence` at the `process_claim_step` call
site) computes `round((1+2)/10*100) = 30`. -/
theorem C1_counterexample :
    calculate_source_diversity_score [evA1, evA2] = 1 ∧
    min (([evA1, evA2] : List EvidenceItem).length : ℤ) 5 = 2 ∧
    confidenceOf [evA1, evA2] = 30 ∧
    specConfidenceC1 1 2 = 32 ∧
    (30 : ℤ) ≠ 32 := by
  refine ⟨by decide, by decide, ?_, ?_, by decide⟩
  · rw [confidenceOf_closed]
    decide
  · rw [specConfidenceC1_closed 1 2 (by norm_num) (by norm_num) (by norm_num) (by norm_num)]
    norm_num

/-- C1 (amended): the per-claim confidence equals
`round((evidence_count + source_diversity) / 10 * 100)`, i.e.
`10 * (source_diversity + evidence_count)` with
`evidence_count = min(len(evidence), 5)`; the value always lies in
`[0, 100]` so the clamp never acts. -/
theorem C1_amended (evidence : List EvidenceItem) :
    confidenceOf evidence =
      10 * (calculate_source_diversity_score evidence + min (evidence.length : ℤ) 5) ∧
    0 ≤ confidenceOf evidence ∧ confidenceOf evidence ≤ 100 :=
  ⟨confidenceOf_closed evidence, (confidenceOf_bounds evidence).1,
    (confidenceOf_bounds evidence).2⟩

/-! ## Claim C2 -/

def outC1 : ClaimOutput := ⟨("c1"), ("insufficient_evidence"), 0, [], none⟩

def outC2 : ClaimOutput := ⟨("c2"), ("likely_true"), 60, [evA1, evA2, evD], none⟩

/-- C2 counterexample: the claim asserts the weighted formula for
*every* request, but the article pipeline (`run_article_fact_check`)
aggregates with a plain rounded mean.  For one empty claim result and
one with confidence 60 and three evidences, the weighted formula gives
`round((10·0.5 + 60·12) / (0.5 + 12)) = 58`, while the article pipeline
returns `round((0 + 60) / 2) = 30`. -/
theorem C2_counterexample :
    article_aggregate [outC1, outC2] = 30 ∧
    aggregate_spec [outC1, outC2] = 58 ∧
    (30 : ℤ) ≠ 58 := by
  have h1 : substConfidence outC1 = 10 := by decide
  have h2 : substConfidence outC2 = 60 := by decide
  have hw1 : claimWeight outC1 = 1 / 2 := by
    rw [claimWeight, h1]
    norm_num [outC1]
  have hw2 : claimWeight outC2 = 12 := by
    rw [claimWeight, h2]
    norm_num [outC2]
  refine ⟨?_, ?_, by decide⟩
  · unfold article_aggregate
    rw [if_pos (by simp)]
    have : ((List.map (fun o => ((o.confidence_score : ℤ) : ℚ)) [outC1, outC2]).sum /
        (([outC1, outC2] : List ClaimOutput).length : ℚ)) = (30 : ℚ) := by
      simp [outC1, outC2]
      norm_num
    rw [this, pythonRound_thirty]
  · unfold aggregate_spec
    rw [if_neg (by simp)]
    have : ((List.map (fun o => ((substConfidence o : ℤ) : ℚ) * claimWeight o)
          [outC1, outC2]).sum / (List.map claimWeight [outC1, outC2]).sum) = (58 : ℚ) := by
      simp only [List.map_cons, List.map_nil, List.sum_cons, List.sum_nil, h1, h2, hw1, hw2]
      norm_num
    rw [this, pythonRound_fiftyEight]

/-- C2 (amended): the weighted aggregate
`round(Σ(c_i·w_i)/Σ(w_i))` — with the floor substitution and the
weights of the claim — is exactly what the *video* pipeline
(`run_fact_check`) computes (0 on an empty claim set); the *article*
pipeline (`run_article_fact_check`) instead returns the plain rounded
mean of the confidence scores (0 on an empty claim set). -/
theorem C2_amended (outputs : List ClaimOutput) :
    aggregate_confidence outputs = aggregate_spec outputs ∧
    aggregate_confidence [] = 0 ∧
    article_aggregate [] = 0 ∧
    (outputs ≠ [] →
      article_aggregate outputs =
        pythonRound
          ((outputs.map (fun o => (o.confidence_score : ℚ))).sum / (outputs.length : ℚ))) := by
  refine ⟨aggregate_confidence_eq_spec outputs, by simp [aggregate_confidence],
    by simp [article_aggregate], ?_⟩
  intro h
  unfold article_aggregate
  rw [if_pos h]

/-- Witness for C2 (amended) at a concrete non-empty output list. -/
theorem C2_amended_witness :
    article_aggregate [outC1, outC2] =
      pythonRound
        ((([outC1, outC2] : List ClaimOutput).map
            (fun o => (o.confidence_score : ℚ))).sum /
          (([outC1, outC2] : List ClaimOutput).length : ℚ)) :=
  (C2_amended [outC1, outC2]).2.2.2 (by simp)

/-! ## Claim C4 -/

/-- C4: the gather loop produces exactly one output slot per reduced
claim, in order; a slot whose task raised carries the claim text,
result `error`, confidence 0, empty evidence and the error string
`"<Type>: <message>"` (with Python's `str(e) or repr(e) or type` fallback
chain). -/
theorem C4_error_slots (claims : List String)
    (runOne : Nat → String → Except PyExn ClaimOutput) :
    (gatherOutputs claims runOne).length = claims.length ∧
    (∀ i c, claims.get? i = some c →
      (gatherOutputs claims runOne).get? i =
        some (match runOne i c with
              | .ok r => r
              | .error e => errorOutput c e)) ∧
    (∀ c e, (errorOutput c e).claim = c ∧ (errorOutput c e).result = ("error") ∧
      (errorOutput c e).confidence_score = 0 ∧ (errorOutput c e).evidence = [] ∧
      (errorOutput c e).error = some (e.typeName ++ (": ") ++ errMsgOf e)) := by
  refine ⟨gatherOutputsFrom_length runOne claims 0 claims, ?_, ?_⟩
  · intro i c h
    have h2 := gatherOutputsFrom_get? runOne claims claims 0 i c h (by simpa using h)
    simpa [gatherOutputs] using h2
  · intro c e
    exact ⟨rfl, rfl, rfl, rfl, rfl⟩

def pyExnW : PyExn := ⟨("ValueError"), ("boom"), ("ValueError(boom)")⟩

theorem C4_witness :
    (gatherOutputs [("a")] (fun _ _ => Except.error pyExnW)).get? 0 =
      some (errorOutput ("a") pyExnW) :=
  (C4_error_slots [("a")] (fun _ _ => Except.error pyExnW)).2.1 0 ("a") rfl

/-! ## Claim C5 -/

/-- C5: the source-diversity score is exactly the 0/1/3/4/5 band of the
number of distinct sources, where a source is the lowercased
`source_title` when truthy, else the lowercased URL host (items with
neither contribute nothing). -/
theorem C5_diversity_band (evidence : List EvidenceItem) :
    calculate_source_diversity_score evidence = diversityBand (distinctSources evidence) := by
  by_cases he : evidence = []
  · subst he
    have h0 : distinctSources ([] : List EvidenceItem) = 0 := by decide
    rw [h0]
    decide
  · unfold calculate_source_diversity_score diversityBand
    rw [if_neg he]
    split_ifs <;> omega

/-! ## Claim C8 -/

/-- C8: when the local tier does not hit and the S3 tier does not yield
a loadable index, a fetched body that is shorter than 200 characters
makes `ensure_article_faiss` return `None` (no exception is modelled:
`get_article_text` returns `""` on its failure paths), and the call
neither builds nor persists any index. -/
theorem C8_short_body (url : String) (env : ArticleEnv)
    (hl : env.localTier ≠ TierLoad.hit)
    (hs : ¬(env.s3Client = true ∧ env.s3Download = true ∧ env.s3Load = true))
    (hf : env.fetchText.length < 200) :
    (ensure_article_faiss url env).1 = none ∧
    ArticleEffect.buildIndex ∉ (ensure_article_faiss url env).2 ∧
    ArticleEffect.saveLocal ∉ (ensure_article_faiss url env).2 ∧
    ArticleEffect.uploadS3 ∉ (ensure_article_faiss url env).2 := by
  have hfb : ∀ effs, fetchAndBuild url env effs = (none, effs ++ [ArticleEffect.fetchBody]) := by
    intro effs
    unfold fetchAndBuild
    rw [if_pos (Or.inr hf)]
  obtain ⟨lt, s3c, s3d, s3l, ft⟩ := env
  cases lt with
  | hit => exact absurd rfl hl
  | corrupt =>
    simp only [ensure_article_faiss]
    split_ifs with h1 h2
    · exact absurd ⟨h1.1, h1.2, h2⟩ hs
    · rw [hfb]
      refine ⟨rfl, ?_, ?_, ?_⟩ <;> simp
    · rw [hfb]
      refine ⟨rfl, ?_, ?_, ?_⟩ <;> simp
  | miss =>
    simp only [ensure_article_faiss]
    split_ifs with h1 h2
    · exact absurd ⟨h1.1, h1.2, h2⟩ hs
    · rw [hfb]
      refine ⟨rfl, ?_, ?_, ?_⟩ <;> simp
    · rw [hfb]
      refine ⟨rfl, ?_, ?_, ?_⟩ <;> simp

def articleEnvW : ArticleEnv := ⟨TierLoad.miss, false, false, false, ("short body")⟩

theorem C8_witness :
    (ensure_article_faiss ("http://a.com/1") articleEnvW).1 = none ∧
    ArticleEffect.buildIndex ∉ (ensure_article_faiss ("http://a.com/1") articleEnvW).2 :=
  ⟨(C8_short_body ("http://a.com/1") articleEnvW (by decide) (by decide) (by decide)).1,
    (C8_short_body ("http://a.com/1") articleEnvW (by decide) (by decide) (by decide)).2.1⟩

/-! ## Claim C10 -/

/-- C10: evidence cleaning preserves the length and order of the list
and, per element, every field except `snippet` and `justification`,
which are rewritten through `clean_evidence_content`. -/
theorem C10_cleaning_frame (evidence_list : List EvidenceItem) :
    (clean_evidence_json evidence_list).length = evidence_list.length ∧
    (∀ i e, evidence_list.get? i = some e →
      (clean_evidence_json evidence_list).get? i =
        some { e with
          snippet := clean_evidence_content e.snippet
          justification := clean_evidence_content e.justification }) := by
  constructor
  · simp [clean_evidence_json]
  · intro i e h
    rw [clean_evidence_json, List.get?_map, h]
    rfl

theorem C10_witness :
    (clean_evidence_json [evB]).get? 0 =
      some { evB with
        snippet := clean_evidence_content evB.snippet
        justification := clean_evidence_content evB.justification } :=
  (C10_cleaning_frame [evB]).2 0 evB rfl

/-! ## Claim C3 -/

/-- C3 counterexample: when the primary retrieval returns no documents,
`process_claim_step` returns immediately (confidence 0) and the
alternate-provider pass does **not** run, although the claimed gating
condition `confidence ≤ 20` holds. -/
theorem C3_counterexample :
    (process_claim_step ("c") [("p1")] (fun _ _ _ => none)).1.confidence_score = 0 ∧
    (process_claim_step ("c") [("p1")] (fun _ _ _ => none)).1.confidence_score ≤ 20 ∧
    (process_claim_step ("c") [("p1")] (fun _ _ _ => none)).2.googleRan = false ∧
    ¬((process_claim_step ("c") [("p1")] (fun _ _ _ => none)).2.googleRan = true ↔
      (process_claim_step ("c") [("p1")] (fun _ _ _ => none)).1.confidence_score ≤ 20) := by
  refine ⟨rfl, by decide, rfl, ?_⟩
  intro hiff
  exact Bool.noConfusion (hiff.mpr (by decide))

/-- C3 (amended): the alternate-provider pass runs iff the primary
retrieval returned at least one document **and** the primary confidence
is ≤ 20; the overflow block runs iff the confidence chosen after the
first cascade is still ≤ 20 and its evidence list is non-empty; the
final (confidence, evidence) is the stage composition in which a
fallback pass with non-empty evidence replaces the current best iff its
confidence is strictly greater (ties keep the earlier pass). -/
theorem C3_amended (claim : String) (dirs : List String)
    (retrieve : List String → List String → Bool → Option (List EvidenceItem)) :
    ((process_claim_step claim dirs retrieve).2.googleRan = true ↔
      (∃ ev1, retrieve dirs [] false = some ev1 ∧ confidenceOf ev1 ≤ 20)) ∧
    ((process_claim_step claim dirs retrieve).2.p9Ran = true ↔
      (∃ ev1, retrieve dirs [] false = some ev1 ∧
        (stage2 dirs retrieve ev1).1 ≤ 20 ∧ (stage2 dirs retrieve ev1).2 ≠ [])) ∧
    (∀ ev1, retrieve dirs [] false = some ev1 →
      ((process_claim_step claim dirs retrieve).1.confidence_score,
        (process_claim_step claim dirs retrieve).2.finalEvidence) =
        stage3 dirs retrieve (stage2 dirs retrieve ev1)) ∧
    (∀ best ev, ev ≠ [] →
      selectBetter best (some ev) =
        if best.1 < confidenceOf ev then (confidenceOf ev, ev) else best) := by
  refine ⟨?_, ?_, ?_, ?_⟩
  · cases h : retrieve dirs [] false with
    | none => simp [process_claim_step, h]
    | some ev1 => simp [process_claim_step, h]
  · cases h : retrieve dirs [] false with
    | none => simp [process_claim_step, h]
    | some ev1 => simp [process_claim_step, h]
  · intro ev1 h
    rw [process_claim_step]
    rw [h]
  · intro best ev hne
    simp [selectBetter, hne, gt_iff_lt]

/-- Witness for C3 (amended): a concrete primary pass with one
low-confidence evidence makes the alternate pass run. -/
theorem C3_amended_witness :
    (process_claim_step ("c") [("p")]
      (fun _ _ g => if g then none else some [evA1])).2.googleRan = true := by
  refine (C3_amended ("c") [("p")] (fun _ _ g => if g then none else some [evA1])).1.mpr
    ⟨[evA1], rfl, ?_⟩
  rw [confidenceOf_closed]
  decide

/-! ## Claim C6 -/

/-- C6 (amended): the result label is `likely_true` iff the final
accepted evidence list is non-empty, and the emitted evidence is the
*cleaned* first three accepted entries (order preserved): each entry's
`snippet` and `justification` are rewritten by `clean_evidence_content`
before output. -/
theorem C6_amended (claim : String) (dirs : List String)
    (retrieve : List String → List String → Bool → Option (List EvidenceItem)) :
    ((process_claim_step claim dirs retrieve).1.result =
      if (process_claim_step claim dirs retrieve).2.finalEvidence = []
      then ("insufficient_evidence") else ("likely_true")) ∧
    (process_claim_step claim dirs retrieve).1.evidence =
      clean_evidence_json ((process_claim_step claim dirs retrieve).2.finalEvidence.take 3) := by
  cases h : retrieve dirs [] false with
  | none => simp [process_claim_step, h, clean_evidence_json]
  | some ev1 =>
    by_cases he : (stage3 dirs retrieve (stage2 dirs retrieve ev1)).2 = [] <;>
      simp [process_claim_step, h, he]

def rexB (dirs seen : List String) (useGoogle : Bool) : Option (List EvidenceItem) :=
  if useGoogle then none else some [evB]

/-- C6 counterexample: one accepted evidence whose snippet contains an
HTML tag.  The final accepted evidence list is `[evB]`, but the emitted
evidence is not `[evB]`: the snippet has been rewritten (the HTML tag
is stripped), so the output is not "exactly the first 3 accepted
entries". -/
theorem C6_counterexample :
    (process_claim_step ("c") [("part")] rexB).2.finalEvidence = [evB] ∧
    (process_claim_step ("c") [("part")] rexB).2.finalEvidence.take 3 = [evB] ∧
    (process_claim_step ("c") [("part")] rexB).1.evidence ≠ [evB] := by
  have hr : rexB [("part")] [] false = some [evB] := rfl
  have h20 : confidenceOf [evB] = 20 := by
    rw [confidenceOf_closed]
    decide
  have hs2 : stage2 [("part")] rexB [evB] = (20, [evB]) := by
    unfold stage2
    rw [h20, if_pos (by norm_num)]
    rfl
  have hs3 : stage3 [("part")] rexB (20, [evB]) = (20, [evB]) := by
    unfold stage3
    rw [if_neg]
    rintro ⟨-, -, h3⟩
    exact h3 (by decide)
  have hfin : (process_claim_step ("c") [("part")] rexB).2.finalEvidence = [evB] := by
    simp only [process_claim_step, hr, hs2, hs3]
  have hev : (process_claim_step ("c") [("part")] rexB).1.evidence =
      clean_evidence_json [evB] := by
    simp only [process_claim_step, hr, hs2, hs3]
    rfl
  refine ⟨hfin, by rw [hfin]; rfl, ?_⟩
  rw [hev]
  decide

/-! ## Claim C7 -/

/-- C7 (amended): every retrieval invocation made by
`process_claim_step` — the primary pass, the alternate-provider pass
and the overflow-partition pass — receives an **empty** URL exclusion
set (`set()` at all three call sites); in particular the secondary
retrieval does not exclude the URLs seen in the primary pass.
(Duplicate URLs are filtered only later, at evidence acceptance,
through the shared `url_set`.) -/
theorem C7_amended (claim : String) (dirs : List String)
    (retrieve : List String → List String → Bool → Option (List EvidenceItem)) :
    ∀ c ∈ (process_claim_step claim dirs retrieve).2.calls, c.seen = [] := by
  intro c hc
  cases h : retrieve dirs [] false with
  | none =>
    simp only [process_claim_step, h] at hc
    simp at hc
    rw [hc]
  | some ev1 =>
    simp only [process_claim_step, h] at hc
    rcases List.mem_append.mp hc with hc1 | hcp
    · rcases List.mem_append.mp hc1 with hc0 | hcg
      · simp at hc0
        rw [hc0]
      · split_ifs at hcg
        · simp at hcg
          rw [hcg]
        · simp at hcg
    · split_ifs at hcp
      · simp at hcp
        rw [hcp]
      · simp at hcp

def rexC (dirs seen : List String) (useGoogle : Bool) : Option (List EvidenceItem) :=
  if useGoogle then some [] else some [evA1]

/-- C7 counterexample: the primary pass accepts the URL
`http://a.com/1`, its confidence (20) triggers the alternate-provider
pass, and the exclusion set passed to that retrieval is the empty set —
it does not contain the primary pass's URL, contradicting the claim
that it does. -/
theorem C7_counterexample :
    (process_claim_step ("c") [("p")] rexC).2.finalEvidence = [evA1] ∧
    (process_claim_step ("c") [("p")] rexC).2.calls =
      [⟨[("p")], [], false⟩, ⟨[("p")], [], true⟩] ∧
    (∀ c ∈ (process_claim_step ("c") [("p")] rexC).2.calls,
      ("http://a.com/1") ∉ c.seen) := by
  have hr : rexC [("p")] [] false = some [evA1] := rfl
  have h20 : confidenceOf [evA1] = 20 := by
    rw [confidenceOf_closed]
    decide
  have hs2 : stage2 [("p")] rexC [evA1] = (20, [evA1]) := by
    unfold stage2
    rw [h20, if_pos (by norm_num)]
    rfl
  have hs3 : stage3 [("p")] rexC (20, [evA1]) = (20, [evA1]) := by
    unfold stage3
    rw [if_neg]
    rintro ⟨-, -, h3⟩
    exact h3 (by decide)
  refine ⟨?_, ?_, ?_⟩
  · simp only [process_claim_step, hr, hs2, hs3]
  · simp only [process_claim_step, hr, hs2, h20]
    rw [if_pos (by norm_num), if_neg]
    · rfl
    · rintro ⟨-, -, h3⟩
      exact h3 (by decide)
  · intro c hc
    simp only [process_claim_step, hr, hs2, h20] at hc
    rw [if_pos (by norm_num), if_neg] at hc
    · rcases List.mem_append.mp hc with hc1 | hcp
      · rcases List.mem_append.mp hc1 with hc0 | hcg
        · simp at hc0
          rw [hc0]
          decide
        · simp at hcg
          rw [hcg]
          decide
      · simp at hcp
    · rintro ⟨-, -, h3⟩
      exact h3 (by decide)

theorem C7_amended_witness :
    (⟨[("p1")], [], false⟩ : RetrievalCall).seen = [] :=
  C7_amended ("c") [("p1")] (fun _ _ _ => none) ⟨[("p1")], [], false⟩ (by decide)

/-! ## Claim C9 -/

/-- C9: single-flight materialization.  In every reachable interleaving
of `k` concurrent callers of `ensure_article_faiss` for the same fresh
URL (per-URL `asyncio.Lock`, cache tiers initially empty, fetch
returning an adequate body): (a) once every caller has finished, the
body was fetched exactly once — the first caller fetches and saves, the
others hit the populated cache on their post-lock re-check; and (b) at
most one materialization is in flight at any time. -/
theorem C9_single_flight (k : Nat) (s : SFState k) (hs : SFReachable s) :
    (0 < k → (∀ t, s.phases t = SFPhase.finished) → s.fetchCount = 1) ∧
    (∀ t1 t2 : Fin k, inFlight s t1 → inFlight s t2 → t1 = t2) := by
  obtain ⟨I1, I2, I3, I4⟩ := sfInv_reachable hs
  constructor
  · intro hk hfin
    have hnone : ¬∃ t : Fin k, inFlight s t := by
      rintro ⟨t, ht | ht⟩ <;> rw [hfin t] at ht <;> exact SFPhase.noConfusion ht
    have hcached : s.cached = true := I4 ⟨⟨0, hk⟩, hfin _⟩
    rw [I2, if_pos hcached, if_neg hnone]
  · intro t1 t2 h1 h2
    have e1 := I1 t1 (Or.inr h1)
    have e2 := I1 t2 (Or.inr h2)
    rw [e1] at e2
    exact Option.some.inj e2

def sfW0 : SFState 1 := sfInit 1

def sfW1 : SFState 1 := ⟨setPhase sfW0 0 SFPhase.holding, some 0, sfW0.cached, sfW0.fetchCount⟩

def sfW2 : SFState 1 :=
  ⟨setPhase sfW1 0 SFPhase.fetching, sfW1.lockHeld, sfW1.cached, sfW1.fetchCount + 1⟩

def sfW3 : SFState 1 := ⟨setPhase sfW2 0 SFPhase.saving, sfW2.lockHeld, sfW2.cached, sfW2.fetchCount⟩

def sfW4 : SFState 1 := ⟨setPhase sfW3 0 SFPhase.finished, none, true, sfW3.fetchCount⟩

theorem sfW4_reachable : SFReachable sfW4 := by
  have h1 : SFStep sfW0 sfW1 := SFStep.acquire 0 sfW0 rfl rfl
  have h2 : SFStep sfW1 sfW2 := SFStep.checkMiss 0 sfW1 rfl rfl
  have h3 : SFStep sfW2 sfW3 := SFStep.fetchDone 0 sfW2 rfl
  have h4 : SFStep sfW3 sfW4 := SFStep.save 0 sfW3 rfl
  exact Relation.ReflTransGen.tail (Relation.ReflTransGen.tail
    (Relation.ReflTransGen.tail (Relation.ReflTransGen.tail Relation.ReflTransGen.refl h1)
      h2) h3) h4

theorem C9_single_flight_witness : sfW4.fetchCount = 1 :=
  (C9_single_flight 1 sfW4 sfW4_reachable).1 (by norm_num) (fun t => by
    have ht : t = 0 := Subsingleton.elim t 0
    rw [ht]
    rfl)

end FactSeeker
